import Mathlib

/-!
Verification development for the txt2voice repository.

Shallow embedding of the engine registry (src/core/tts_engine.py), the
voice-pack mapping (src/core/pyttsx3_integration.py,
src/core/voice_pack_manager.py), adapter error handling
(src/core/edge_tts_integration.py, src/audio/audio_processor.py), the
CosyVoice fallback synthesis pipeline
(src/core/real_cosyvoice_integration.py), the LRU cache
(src/core/performance_optimizer.py) and the CLI/batch entry points
(main.py, src/core/batch_processor.py), together with theorems settling
the specification claims about them.

Modelling conventions: machine floats become rationals; numpy arrays
become lists of rationals; Python dicts become association lists with
insert-or-update semantics; a Python function that can raise becomes a
function into Option or Except, and a try/except boundary becomes the
handler of that Option/Except; external library calls (system voices,
network audio, librosa time stretching) become explicit parameters of the
embedded functions.
-/

namespace Txt2Voice

/-! ## Engine registry: src/core/tts_engine.py -/

/-- Outcome of one adapter load call as observed by the loop in
TTSEngine.load_model (src/core/tts_engine.py lines 50-60): the call
returns a boolean, or raises an exception which the per-candidate
try/except catches. -/
inductive LoadOutcome where
  | ok (b : Bool)
  | raises
deriving DecidableEq

/-- The mutable registry fields of TTSEngine
(src/core/tts_engine.py lines 32-33). -/
structure RegistryState where
  available_engines : List String
  current_engine : Option String
deriving DecidableEq

/-- TTSEngine.__init__ (lines 29-35): no available engines, no current
engine. -/
def initState : RegistryState :=
  { available_engines := [], current_engine := none }

/-- The fixed priority-ordered candidate list of TTSEngine.load_model
(lines 43-48). -/
def engineOrder : List String := ["edge_tts", "gtts", "pyttsx3", "cosyvoice"]

/-- One iteration of the load loop (lines 50-60): on a successful load the
engine name is appended to available_engines and becomes current if no
engine is current yet; a False return or a raised exception (caught by the
per-candidate except clause) leaves the state unchanged. -/
def loadStep (loads : String → LoadOutcome) (st : RegistryState)
    (e : String) : RegistryState :=
  match loads e with
  | .ok true =>
      { available_engines := st.available_engines ++ [e],
        current_engine := some (st.current_engine.getD e) }
  | .ok false => st
  | .raises => st

/-- TTSEngine.load_model (lines 37-72): folds the load loop over the
candidate list and returns False exactly when available_engines stayed
empty (lines 62-64), True otherwise.  Every exception of an adapter load
is caught inside the loop, so the whole operation is a total function of
the adapters' outcomes. -/
def load_model (loads : String → LoadOutcome) (st : RegistryState) :
    Bool × RegistryState :=
  let st2 := engineOrder.foldl (loadStep loads) st
  (!st2.available_engines.isEmpty, st2)

/-- TTSEngine.set_current_engine (lines 78-86): switches only when the
name is a member of available_engines, otherwise reports False and leaves
the state unchanged. -/
def set_current_engine (st : RegistryState) (engine_name : String) :
    Bool × RegistryState :=
  if engine_name ∈ st.available_engines then
    (true, { st with current_engine := some engine_name })
  else
    (false, st)

/-- The parameters of one synthesis call
(text, voice_pack, speed, pitch, energy). -/
structure SynthRequest where
  text : String
  voice_pack : String
  speed : ℚ
  pitch : ℤ
  energy : ℚ

/-- TTSEngine.synthesize (lines 92-117): returns None when no engine is
available, otherwise dispatches on the current engine name to the matching
adapter and returns that adapter's result unchanged; an unrecognized
current engine yields None.  The adapters are a parameter: each one is a
function from a request to an optional audio buffer (every adapter wraps
its body in a try/except returning None, so Option is its full behaviour). -/
def registrySynthesize (adapters : String → SynthRequest → Option (List ℚ))
    (st : RegistryState) (req : SynthRequest) : Option (List ℚ) :=
  if st.available_engines = [] then none
  else if st.current_engine = some "edge_tts" then adapters "edge_tts" req
  else if st.current_engine = some "gtts" then adapters "gtts" req
  else if st.current_engine = some "pyttsx3" then adapters "pyttsx3" req
  else if st.current_engine = some "cosyvoice" then adapters "cosyvoice" req
  else none

/-- The registry invariant: a current engine is always a member of
available_engines. -/
def RegistryInv (st : RegistryState) : Prop :=
  ∀ c, st.current_engine = some c → c ∈ st.available_engines

/-- The three registry operations.  synthesize assigns no attribute of the
registry (src/core/tts_engine.py lines 92-117 contain no writes to self),
so its state transition is the identity. -/
inductive RegOp where
  | load (loads : String → LoadOutcome)
  | select (engine_name : String)
  | synth (adapters : String → SynthRequest → Option (List ℚ))
      (req : SynthRequest)

/-- State transition of one registry operation. -/
def applyOp : RegOp → RegistryState → RegistryState
  | .load loads, st => (load_model loads st).2
  | .select e, st => (set_current_engine st e).2
  | .synth _ _, st => st

lemma loadStep_inv (loads : String → LoadOutcome) (st : RegistryState)
    (e : String) (h : RegistryInv st) : RegistryInv (loadStep loads st e) := by
  unfold loadStep
  cases hl : loads e with
  | ok b =>
    cases b with
    | true =>
      intro c hc
      simp only [Option.some.injEq] at hc
      cases hcur : st.current_engine with
      | none =>
        simp [hcur] at hc
        subst hc
        simp
      | some c0 =>
        simp [hcur] at hc
        subst hc
        exact List.mem_append_left _ (h c0 hcur)
    | false => exact h
  | raises => exact h

lemma foldl_loadStep_inv (loads : String → LoadOutcome) (l : List String)
    (st : RegistryState) (h : RegistryInv st) :
    RegistryInv (l.foldl (loadStep loads) st) := by
  induction l generalizing st with
  | nil => exact h
  | cons e rest ih => exact ih _ (loadStep_inv loads st e h)

lemma foldl_loadStep_available (loads : String → LoadOutcome)
    (l : List String) (st : RegistryState) :
    (l.foldl (loadStep loads) st).available_engines
      = st.available_engines
        ++ l.filter (fun e => decide (loads e = .ok true)) := by
  induction l generalizing st with
  | nil => simp
  | cons e rest ih =>
    simp only [List.foldl_cons, List.filter_cons]
    rw [ih]
    cases hl : loads e with
    | ok b =>
      cases b with
      | true => simp [loadStep, hl]
      | false => simp [loadStep, hl]
    | raises => simp [loadStep, hl]

/-- C1: engine initialization (TTSEngine.load_model) never raises — it is
a total function of the candidate load outcomes, every candidate failure
being caught inside the loop — and on return the current engine is none or
a member of available_engines, and it returns false exactly when no
candidate engine loaded successfully. -/
theorem load_model_total_and_reports_failure (loads : String → LoadOutcome) :
    ((load_model loads initState).2.current_engine = none ∨
      ∃ c, (load_model loads initState).2.current_engine = some c ∧
        c ∈ (load_model loads initState).2.available_engines) ∧
    ((load_model loads initState).1 = false ↔
      ∀ e ∈ engineOrder, loads e ≠ .ok true) := by
  have hinv : RegistryInv (load_model loads initState).2 := by
    unfold load_model
    exact foldl_loadStep_inv loads engineOrder initState (by intro c hc; simp [initState] at hc)
  constructor
  · cases hcur : (load_model loads initState).2.current_engine with
    | none => exact Or.inl rfl
    | some c => exact Or.inr ⟨c, rfl, hinv c hcur⟩
  · unfold load_model
    simp only [Bool.not_eq_false', List.isEmpty_iff]
    rw [foldl_loadStep_available]
    simp [initState, List.filter_eq_nil_iff]

/-- Witness for the claim C1 theorem at a concrete outcome assignment. -/
theorem load_model_total_and_reports_failure_witness :
    (load_model (fun _ => .raises) initState).1 = false :=
  (load_model_total_and_reports_failure (fun _ => .raises)).2.mpr
    (fun _ _ => by intro h; cases h)

/-- C2: at most one engine is current at a time (the current engine is a
single optional name), and every registry operation — load_model,
set_current_engine, and synthesize (which writes no registry state) —
preserves the invariant that a non-none current engine is a member of
available_engines, the engines whose load attempt succeeded. -/
theorem registry_invariant_preserved :
    (∀ (st : RegistryState) (c₁ c₂ : String),
      st.current_engine = some c₁ → st.current_engine = some c₂ → c₁ = c₂) ∧
    (∀ (op : RegOp) (st : RegistryState),
      RegistryInv st → RegistryInv (applyOp op st)) := by
  constructor
  · intro st c₁ c₂ h₁ h₂
    rw [h₁] at h₂
    exact Option.some.inj h₂
  · intro op st h
    cases op with
    | load loads => exact foldl_loadStep_inv loads engineOrder st h
    | select e =>
      unfold applyOp set_current_engine
      by_cases he : e ∈ st.available_engines
      · simp only [he, if_pos]
        intro c hc
        simp at hc
        subst hc
        exact he
      · simp only [he, if_neg, not_false_iff]
        exact h
    | synth adapters req => exact h

/-- Witness for the claim C2 theorem at a concrete state and operation. -/
theorem registry_invariant_preserved_witness :
    RegistryInv (applyOp (RegOp.select "gtts")
      { available_engines := ["gtts"], current_engine := some "gtts" }) :=
  registry_invariant_preserved.2 (RegOp.select "gtts")
    { available_engines := ["gtts"], current_engine := some "gtts" }
    (by intro c hc; simp at hc; subst hc; simp)

/-- C3: selecting an engine whose load attempt did not succeed (it is not
a candidate that returned a successful load, hence not in
available_engines after initialization) returns false and leaves the
current engine — indeed the whole registry state — unchanged. -/
theorem select_unloaded_engine_fails (loads : String → LoadOutcome)
    (e : String) (h : ¬ (e ∈ engineOrder ∧ loads e = .ok true)) :
    set_current_engine (load_model loads initState).2 e
      = (false, (load_model loads initState).2) := by
  have hav : (load_model loads initState).2.available_engines
      = engineOrder.filter (fun x => decide (loads x = .ok true)) := by
    unfold load_model
    rw [foldl_loadStep_available]
    simp [initState]
  unfold set_current_engine
  rw [hav]
  rw [if_neg]
  intro hmem
  rw [List.mem_filter] at hmem
  exact h ⟨hmem.1, of_decide_eq_true hmem.2⟩

/-- Witness for the claim C3 theorem at a concrete outcome assignment. -/
theorem select_unloaded_engine_fails_witness :
    set_current_engine
        (load_model (fun e => .ok (e = "edge_tts")) initState).2 "gtts"
      = (false, (load_model (fun e => .ok (e = "edge_tts")) initState).2) :=
  select_unloaded_engine_fails (fun e => .ok (e = "edge_tts")) "gtts"
    (by intro h; have := h.2; simp at this)

/-- C6: when an engine is available and the current engine is one of the
four candidate names, the registry synthesize performs exactly one call to
that engine's adapter and returns the adapter's result — audio or failure
signal — unchanged; no retry and no fallback to another engine happens at
this layer. -/
theorem registry_synthesize_delegates
    (adapters : String → SynthRequest → Option (List ℚ))
    (st : RegistryState) (req : SynthRequest) (e : String)
    (h1 : st.available_engines ≠ []) (h2 : st.current_engine = some e)
    (h3 : e ∈ engineOrder) :
    registrySynthesize adapters st req = adapters e req := by
  simp only [engineOrder, List.mem_cons, List.mem_singleton,
    List.not_mem_nil, or_false] at h3
  rcases h3 with rfl | rfl | rfl | rfl <;>
    simp [registrySynthesize, h1, h2]

/-- Witness for the claim C6 theorem at a concrete state and request. -/
theorem registry_synthesize_delegates_witness :
    registrySynthesize (fun _ _ => some [0])
        { available_engines := ["pyttsx3"], current_engine := some "pyttsx3" }
        { text := "hello", voice_pack := "default",
          speed := 1, pitch := 0, energy := 1 }
      = some [0] :=
  registry_synthesize_delegates (fun _ _ => some [0])
    { available_engines := ["pyttsx3"], current_engine := some "pyttsx3" }
    { text := "hello", voice_pack := "default",
      speed := 1, pitch := 0, energy := 1 }
    "pyttsx3" (by simp) rfl (by simp [engineOrder])

/-! ## Voice-pack mapping: src/core/voice_pack_manager.py and
src/core/pyttsx3_integration.py -/

/-- Python dict lookup d.get(k) on an association list (first binding of
the key; keys in the embedded dicts are unique). -/
def dictGet : List (String × α) → String → Option α
  | [], _ => none
  | (k2, v) :: rest, k => if k2 = k then some v else dictGet rest k

/-- The static Edge-TTS table of VoicePackManager._get_edge_tts_voice_id
(voice_pack_manager.py lines 188-197). -/
def edgeTtsVoiceTable : List (String × String) :=
  [("default", "zh-CN-XiaoxiaoNeural"), ("female", "zh-CN-XiaoxiaoNeural"),
   ("male", "zh-CN-YunjianNeural"), ("child", "zh-CN-XiaoxiaoNeural"),
   ("elder", "zh-CN-YunjianNeural"), ("robot", "zh-CN-YunjianNeural"),
   ("angry", "zh-CN-XiaoxiaoNeural"), ("sad", "zh-CN-XiaoxiaoNeural")]

/-- VoicePackManager._get_edge_tts_voice_id (lines 186-198): table lookup
with the hard-coded default for unknown pack names. -/
def getEdgeTtsVoiceId (pack_name : String) : String :=
  (dictGet edgeTtsVoiceTable pack_name).getD "zh-CN-XiaoxiaoNeural"

/-- One discovered pyttsx3 system voice as stored by
Pyttsx3Integration._load_available_voices (pyttsx3_integration.py lines
74-78): its name, its id, and the analysed feature strings. -/
structure P3Voice where
  name : String
  id : String
  features : List String
deriving DecidableEq

/-- Python truthiness of an optional string (None and the empty string are
falsy), as tested by the if-statements of get_voice_pack_mapping. -/
def truthy : Option String → Bool
  | some s => s != ""
  | none => false

/-- The first discovered voice carrying both feature strings, as found by
the three search loops of get_voice_pack_mapping (pyttsx3_integration.py
lines 98-117); the loops keep the id of the first match. -/
def findVoiceId (voices : List P3Voice) (f1 f2 : String) : Option String :=
  (voices.find? (fun v => v.features.contains f1 && v.features.contains f2)).map P3Voice.id

/-- Pyttsx3Integration.get_voice_pack_mapping (lines 91-137): empty when no
voices were discovered; otherwise assigns pack names to the first Chinese
female, English male, and Chinese male voice ids, each group guarded by
the truthiness of the found id.  The key sets of the three groups are
disjoint, so the association list models the built dict exactly. -/
def get_voice_pack_mapping (voices : List P3Voice) : List (String × String) :=
  if voices.isEmpty then []
  else
    let chinese_female := findVoiceId voices "中文" "女声"
    let english_male := findVoiceId voices "英文" "男声"
    let chinese_male := findVoiceId voices "中文" "男声"
    (if truthy chinese_female then
      [("default", chinese_female.getD ""), ("female", chinese_female.getD ""),
       ("child", chinese_female.getD ""), ("angry", chinese_female.getD ""),
       ("sad", chinese_female.getD "")]
     else []) ++
    (if truthy english_male then
      [("male", english_male.getD ""), ("robot", english_male.getD "")]
     else if truthy chinese_male then
      [("male", chinese_male.getD ""), ("robot", chinese_male.getD "")]
     else []) ++
    (if truthy chinese_male then [("elder", chinese_male.getD "")] else [])

/-- The engine-specific pack-name stripping of Pyttsx3Integration.synthesize
(lines 162-165). -/
def pyttsx3BasePack (voice_pack : String) : String :=
  if voice_pack.startsWith "pyttsx3_" then voice_pack.drop 8 else voice_pack

/-- The voice lookup performed by Pyttsx3Integration.synthesize (line 167):
voice_mapping.get(base_voice_pack, voice_mapping.get('default')) — note
there is no hard-coded final default here, unlike the Edge-TTS adapters. -/
def pyttsx3VoiceLookup (voices : List P3Voice) (voice_pack : String) :
    Option String :=
  let m := get_voice_pack_mapping voices
  match dictGet m (pyttsx3BasePack voice_pack) with
  | some v => some v
  | none => dictGet m "default"

lemma truthy_iff (o : Option String) :
    truthy o = true ↔ ∃ s, o = some s ∧ s ≠ "" := by
  cases o with
  | none => simp [truthy]
  | some s => simp [truthy, bne_iff_ne]

lemma getD_ne_empty_of_truthy (o : Option String) (h : truthy o = true) :
    o.getD "" ≠ "" := by
  rcases (truthy_iff o).mp h with ⟨s, rfl, hs⟩
  simpa using hs

lemma dictGet_mem (m : List (String × α)) (k : String) (v : α)
    (h : dictGet m k = some v) : (k, v) ∈ m := by
  induction m with
  | nil => simp [dictGet] at h
  | cons q rest ih =>
    cases q with
    | mk k2 w =>
      by_cases hk : k2 = k
      · subst hk
        rw [dictGet, if_pos rfl] at h
        simp only [Option.some.injEq] at h
        subst h
        exact List.mem_cons_self _ _
      · rw [dictGet, if_neg hk] at h
        exact List.mem_cons_of_mem _ (ih h)

lemma mapping_values_ne_empty (voices : List P3Voice) (p s : String)
    (h : (p, s) ∈ get_voice_pack_mapping voices) : s ≠ "" := by
  unfold get_voice_pack_mapping at h
  by_cases hv : voices.isEmpty = true
  · rw [if_pos hv] at h
    simp at h
  · rw [if_neg hv] at h
    set cf := findVoiceId voices "中文" "女声" with hcf
    set em := findVoiceId voices "英文" "男声" with hem
    set cm := findVoiceId voices "中文" "男声" with hcm
    simp only [List.mem_append] at h
    rcases h with (h | h) | h
    · by_cases htf : truthy cf = true
      · rw [if_pos htf] at h
        simp only [List.mem_cons, List.not_mem_nil, or_false,
          Prod.mk.injEq] at h
        rcases h with ⟨_, rfl⟩ | ⟨_, rfl⟩ | ⟨_, rfl⟩ | ⟨_, rfl⟩ | ⟨_, rfl⟩ <;>
          exact getD_ne_empty_of_truthy cf htf
      · rw [if_neg htf] at h
        simp at h
    · by_cases hte : truthy em = true
      · rw [if_pos hte] at h
        simp only [List.mem_cons, List.not_mem_nil, or_false,
          Prod.mk.injEq] at h
        rcases h with ⟨_, rfl⟩ | ⟨_, rfl⟩ <;>
          exact getD_ne_empty_of_truthy em hte
      · rw [if_neg hte] at h
        by_cases htc : truthy cm = true
        · rw [if_pos htc] at h
          simp only [List.mem_cons, List.not_mem_nil, or_false,
            Prod.mk.injEq] at h
          rcases h with ⟨_, rfl⟩ | ⟨_, rfl⟩ <;>
            exact getD_ne_empty_of_truthy cm htc
        · rw [if_neg htc] at h
          simp at h
    · by_cases htc : truthy cm = true
      · rw [if_pos htc] at h
        simp only [List.mem_cons, List.not_mem_nil, or_false,
          Prod.mk.injEq] at h
        rcases h with ⟨_, rfl⟩
        exact getD_ne_empty_of_truthy cm htc
      · rw [if_neg htc] at h
        simp at h

lemma mapping_default_of_chinese_female (voices : List P3Voice)
    (h : truthy (findVoiceId voices "中文" "女声") = true) :
    dictGet (get_voice_pack_mapping voices) "default"
      = some ((findVoiceId voices "中文" "女声").getD "") := by
  have hv : ¬ (voices.isEmpty = true) := by
    intro hemp
    rw [List.isEmpty_iff] at hemp
    subst hemp
    simp [findVoiceId, truthy] at h
  unfold get_voice_pack_mapping
  rw [if_neg hv]
  simp [h, dictGet]

/-- C4 counterexample: with pyttsx3 loaded but no discovered system voices
(the stored state after a voice-list load failure,
pyttsx3_integration.py line 89), the voice-pack mapping is empty and the
lookup performed by synthesize yields no backend voice identifier at all
for the supported pack "female" — refuting that the mapping always
returns a non-empty identifier with only a fall-back-to-default failure
mode. -/
theorem pyttsx3_mapping_returns_nothing :
    pyttsx3VoiceLookup [] "female" = none := rfl

/-- C4 amended: the static Edge-TTS mapping always returns a non-empty
backend voice identifier, falling back to the designated default for pack
names outside its table, with no side effects and no failure mode; the
pyttsx3 mapping, however, is built dynamically from discovered system
voices — it returns a non-empty identifier for every pack whenever a
Chinese female voice with a non-empty id was discovered, and with no such
voice it can yield no identifier at all. -/
theorem voice_pack_mapping_amended :
    (∀ pack, getEdgeTtsVoiceId pack ≠ "") ∧
    (∀ pack, dictGet edgeTtsVoiceTable pack = none →
      getEdgeTtsVoiceId pack = "zh-CN-XiaoxiaoNeural") ∧
    (∀ (voices : List P3Voice) (pack : String),
      truthy (findVoiceId voices "中文" "女声") = true →
      ∃ s, pyttsx3VoiceLookup voices pack = some s ∧ s ≠ "") := by
  refine ⟨?_, ?_, ?_⟩
  · intro pack
    unfold getEdgeTtsVoiceId
    cases hd : dictGet edgeTtsVoiceTable pack with
    | none => simp
    | some v =>
      have hm := dictGet_mem _ _ _ hd
      simp only [edgeTtsVoiceTable, List.mem_cons, List.not_mem_nil, or_false,
        Prod.mk.injEq] at hm
      rcases hm with ⟨_, rfl⟩ | ⟨_, rfl⟩ | ⟨_, rfl⟩ | ⟨_, rfl⟩ | ⟨_, rfl⟩ |
        ⟨_, rfl⟩ | ⟨_, rfl⟩ | ⟨_, rfl⟩ <;> simp
  · intro pack hd
    unfold getEdgeTtsVoiceId
    rw [hd]
    rfl
  · intro voices pack h
    have hgoal : pyttsx3VoiceLookup voices pack
        = match dictGet (get_voice_pack_mapping voices)
            (pyttsx3BasePack pack) with
          | some v => some v
          | none => dictGet (get_voice_pack_mapping voices) "default" := rfl
    rw [hgoal]
    cases hd : dictGet (get_voice_pack_mapping voices)
        (pyttsx3BasePack pack) with
    | some v =>
      exact ⟨v, rfl,
        mapping_values_ne_empty voices _ v (dictGet_mem _ _ _ hd)⟩
    | none =>
      exact ⟨(findVoiceId voices "中文" "女声").getD "",
        mapping_default_of_chinese_female voices h,
        getD_ne_empty_of_truthy _ h⟩

/-- Witness for the claim C4 amended theorem at a concrete pack and voice
list. -/
theorem voice_pack_mapping_amended_witness :
    getEdgeTtsVoiceId "whisper" = "zh-CN-XiaoxiaoNeural" ∧
    ∃ s, pyttsx3VoiceLookup
        [{ name := "Huihui", id := "hkey-huihui", features := ["中文", "女声"] }]
        "robot" = some s ∧ s ≠ "" :=
  ⟨voice_pack_mapping_amended.2.1 "whisper" rfl,
   voice_pack_mapping_amended.2.2
     [{ name := "Huihui", id := "hkey-huihui", features := ["中文", "女声"] }]
     "robot" rfl⟩

/-! ## Adapter error boundaries: src/core/edge_tts_integration.py and
src/audio/audio_processor.py -/

/-- Outcome of one attempt of the Edge-TTS retry loop
(edge_tts_integration.py lines 205-232): the inner coroutine either reads
back an audio buffer, or finds the generated file empty or missing and
returns None (lines 170-172), or raises — a network timeout, connection
error or access-denied response — which the inner except clause converts
to None (lines 189-201); an exception escaping run_until_complete is
caught by the outer except of the loop (lines 224-232). -/
inductive AttemptOutcome where
  | audio (a : List ℚ)
  | fileEmpty
  | raising (msg : String)

/-- The optional audio value an attempt delivers to the retry loop. -/
def attemptResult : AttemptOutcome → Option (List ℚ)
  | .audio a => some a
  | .fileEmpty => none
  | .raising _ => none

/-- The retry loop of EdgeTTSIntegration.synthesize (lines 204-234): an
attempt returning a non-empty buffer is returned immediately; a None or
empty buffer moves on to the next attempt; after the last attempt the
loop returns None. -/
def edgeAttempts : List AttemptOutcome → Option (List ℚ)
  | [] => none
  | o :: rest =>
    match attemptResult o with
    | some a => if 0 < a.length then some a else edgeAttempts rest
    | none => edgeAttempts rest

/-- The loaded flag of the Edge-TTS adapter (self.model, set by
load_model). -/
structure EdgeState where
  loaded : Bool

/-- EdgeTTSIntegration.synthesize (lines 129-238) at the error-handling
level: None when the backend is unavailable (model unloaded, lines
133-135), otherwise the three-attempt retry loop; the whole body sits in
a try/except returning None, so the function is total in the attempt
outcomes. -/
def edgeSynthesize (st : EdgeState) (o1 o2 o3 : AttemptOutcome) :
    Option (List ℚ) :=
  if st.loaded then edgeAttempts [o1, o2, o3] else none

/-- An attempt that produces no usable audio: it yielded None (network
failure or empty file) or an empty buffer. -/
def attemptFails (o : AttemptOutcome) : Prop :=
  attemptResult o = none ∨ attemptResult o = some []

/-- Outcome of the sf.write call inside AudioProcessor.save_audio. -/
inductive WriteOutcome where
  | succeeds
  | fails (msg : String)

/-- Running maximum of absolute values, np.max(np.abs(.)) over a fold. -/
def listAbsMax (l : List ℚ) : ℚ := l.foldl (fun m x => max m |x|) 0

/-- AudioProcessor.save_audio (audio_processor.py lines 59-100): rescales
the buffer when its peak exceeds 1, then writes; on success it returns
the file path (paired here with the samples written), and a write failure
is logged and then RE-RAISED by the bare raise on line 100, so it
propagates to the caller as an exception. -/
def save_audio (w : WriteOutcome) (audio : List ℚ) (filepath : String) :
    Except String (String × List ℚ) :=
  let m := listAbsMax audio
  let normed := if 1 < m then audio.map (fun x => x / m) else audio
  match w with
  | .succeeds => .ok (filepath, normed)
  | .fails msg => .error msg

lemma edgeAttempts_cons_of_fails (o : AttemptOutcome)
    (rest : List AttemptOutcome) (h : attemptFails o) :
    edgeAttempts (o :: rest) = edgeAttempts rest := by
  rcases h with h | h <;> simp [edgeAttempts, h]

/-- C5 counterexample: a disk write failure inside
AudioProcessor.save_audio is logged and then re-raised
(audio_processor.py line 100), reaching the caller as an exception rather
than being converted into a null/failure result — refuting that all four
error classes are absorbed at the operation boundary. -/
theorem save_audio_reraises_write_failure :
    save_audio (.fails "No space left on device") [1/2] "out.wav"
      = Except.error "No space left on device" := rfl

/-- C5 amended: synthesis errors of the first three classes — backend
unavailable, network failure, empty or invalid output — are caught at the
Edge-TTS adapter boundary and converted into a logged message plus a None
result; a disk write failure during save, however, is logged and then
re-raised by AudioProcessor.save_audio, so it propagates as an exception
to the caller. -/
theorem adapter_error_boundaries_amended :
    (∀ o1 o2 o3, edgeSynthesize { loaded := false } o1 o2 o3 = none) ∧
    (∀ (st : EdgeState) (o1 o2 o3 : AttemptOutcome),
      attemptFails o1 → attemptFails o2 → attemptFails o3 →
      edgeSynthesize st o1 o2 o3 = none) ∧
    (∀ (audio : List ℚ) (filepath msg : String),
      save_audio (.fails msg) audio filepath = Except.error msg) := by
  refine ⟨?_, ?_, ?_⟩
  · intro o1 o2 o3
    simp [edgeSynthesize]
  · intro st o1 o2 o3 h1 h2 h3
    unfold edgeSynthesize
    rw [edgeAttempts_cons_of_fails o1 _ h1, edgeAttempts_cons_of_fails o2 _ h2,
      edgeAttempts_cons_of_fails o3 _ h3]
    simp [edgeAttempts]
  · intro audio filepath msg
    rfl

/-- Witness for the claim C5 amended theorem at concrete attempt
outcomes. -/
theorem adapter_error_boundaries_amended_witness :
    edgeSynthesize { loaded := true } (.raising "403 Invalid response status")
      .fileEmpty (.audio []) = none :=
  adapter_error_boundaries_amended.2.1 { loaded := true }
    (.raising "403 Invalid response status") .fileEmpty (.audio [])
    (Or.inl rfl) (Or.inl rfl) (Or.inr rfl)

/-! ## CosyVoice fallback synthesis:
src/core/real_cosyvoice_integration.py -/

/-- Python int() truncation of a nonnegative rational sample count. -/
def pyTrunc (q : ℚ) : ℕ := (⌊q⌋).toNat

/-- Speed of the voice profile chosen by the fallback model
(real_cosyvoice_integration.py lines 94-101), with
voice_profiles.get falling back to the default profile (line 122). -/
def profileSpeed (voice_pack : String) : ℚ :=
  (dictGet [("default", 1), ("male", 9/10), ("female", 11/10),
    ("child", 13/10), ("elder", 4/5), ("robot", 1)] voice_pack).getD 1

/-- Sample count estimated by inference_zero_shot (lines 106-109): 0.3
seconds of 22050 Hz audio per character (exact rational arithmetic stands
in for the float arithmetic of the source). -/
def estimatedAudioLen (text : String) : ℕ :=
  pyTrunc ((22050 : ℚ) * ((text.length : ℚ) * (3/10)))

/-- Sample count of _generate_speech_like_audio after the profile-speed
division of line 128. -/
def hqAudioLen (text : String) (voice_pack : String) : ℕ :=
  pyTrunc ((estimatedAudioLen text : ℚ) / profileSpeed voice_pack)

/-- HighQualityModel._compress_audio (lines 206-213) on one sample:
threshold 0.3, knee 4, sign-preserving. -/
def compressSample (x : ℚ) : ℚ :=
  if 3/10 < |x| then
    (if 0 ≤ x then 1 else -1) * (3/10 + (|x| - 3/10) / 4)
  else x

/-- Step 6 of _generate_speech_like_audio. -/
def compress_audio (audio : List ℚ) : List ℚ := audio.map compressSample

/-- Step 7 of _generate_speech_like_audio (lines 190-192): when the peak
is positive the buffer is rescaled so its peak becomes exactly 0.7. -/
def normalizeTo07 (audio : List ℚ) : List ℚ :=
  let m := listAbsMax audio
  if 0 < m then audio.map (fun x => x / m * (7/10)) else audio

/-- _generate_speech_like_audio (lines 119-194).  Steps 1-5 build a
real-valued buffer of hqAudioLen samples out of sinusoids, random noise
and a random-perturbed syllable envelope; those steps are float library
math with randomized components, so the per-index pre-compression sample
value is the parameter sig (two runs share the deterministic parts of sig
but not its noise terms).  Steps 6 and 7 — compression and peak
normalization — are embedded exactly. -/
def generate_speech_like_audio (text voice_pack : String) (sig : ℕ → ℚ) :
    List ℚ :=
  normalizeTo07 (compress_audio
    ((List.range (hqAudioLen text voice_pack)).map sig))

/-- The external librosa transforms invoked by the parameter-adjustment
steps of RealCosyVoice2Integration.synthesize:
librosa.effects.time_stretch (_adjust_speed, line 293) and
librosa.effects.pitch_shift (_adjust_pitch, line 311); third-party calls,
taken as parameters of the embedding. -/
structure ExtAudioOps where
  timeStretch : List ℚ → ℚ → List ℚ
  pitchShift : List ℚ → ℤ → List ℚ

/-- _adjust_speed (lines 286-302): identity at speed 1, otherwise the
time-stretch call. -/
def adjust_speed (ops : ExtAudioOps) (audio : List ℚ) (speed : ℚ) :
    List ℚ :=
  if speed = 1 then audio else ops.timeStretch audio speed

/-- _adjust_pitch (lines 304-315): identity at shift 0, otherwise the
pitch-shift call. -/
def adjust_pitch (ops : ExtAudioOps) (audio : List ℚ) (shift : ℤ) :
    List ℚ :=
  if shift = 0 then audio else ops.pitchShift audio shift

/-- The cosyvoice_-tag stripping of synthesize (lines 228-231). -/
def cosyBasePack (voice_pack : String) : String :=
  if voice_pack.startsWith "cosyvoice_" then voice_pack.drop 10
  else voice_pack

/-- The speed step of RealCosyVoice2Integration.synthesize (lines
272-273): applied only when the speed factor differs from 1. -/
def cosyStage1 (ops : ExtAudioOps) (speed : ℚ) (audio : List ℚ) :
    List ℚ :=
  if speed ≠ 1 then adjust_speed ops audio speed else audio

/-- The pitch step of RealCosyVoice2Integration.synthesize (lines
274-275): applied only when the shift differs from 0. -/
def cosyStage2 (ops : ExtAudioOps) (pitch : ℤ) (audio : List ℚ) :
    List ℚ :=
  if pitch ≠ 0 then adjust_pitch ops audio pitch else audio

/-- The conditional parameter adjustments of
RealCosyVoice2Integration.synthesize (lines 271-277), applied in order to
the generated buffer: speed, pitch, then the energy factor as a plain
multiplication (lines 276-277) with no clamping. -/
def cosyPipeline (ops : ExtAudioOps) (speed : ℚ) (pitch : ℤ)
    (energy : ℚ) (audio : List ℚ) : List ℚ :=
  if energy ≠ 1 then
    (cosyStage2 ops pitch (cosyStage1 ops speed audio)).map
      (fun x => x * energy)
  else cosyStage2 ops pitch (cosyStage1 ops speed audio)

/-- RealCosyVoice2Integration.synthesize (lines 217-284) in the fallback
configuration (use_real_model = False, the state load_model leaves when no
real CosyVoice checkpoint is present): None when the model is unloaded,
otherwise the fallback generation followed by the parameter adjustments.
The energy factor is applied AFTER the peak normalization of the
generator. -/
def cosyvoiceSynthesize (ops : ExtAudioOps) (loaded : Bool)
    (text voice_pack : String) (speed : ℚ) (pitch : ℤ) (energy : ℚ)
    (sig : ℕ → ℚ) : Option (List ℚ) :=
  if loaded then
    some (cosyPipeline ops speed pitch energy
      (generate_speech_like_audio text (cosyBasePack voice_pack) sig))
  else none

/-- The post-read audio handling of Pyttsx3Integration.synthesize
(pyttsx3_integration.py lines 194-207): an empty buffer yields None;
otherwise the buffer is peak-normalized to 0.8 when its peak is positive.
The energy factor of this adapter is passed to the engine volume BEFORE
this step (line 156), so the returned samples are bounded regardless. -/
def pyttsx3Postprocess (audio : List ℚ) : Option (List ℚ) :=
  if audio.length = 0 then none
  else
    let m := listAbsMax audio
    some (if 0 < m then audio.map (fun x => x / m * (4/5)) else audio)

lemma foldl_absmax_ge (l : List ℚ) (acc : ℚ) :
    acc ≤ l.foldl (fun m x => max m |x|) acc := by
  induction l generalizing acc with
  | nil => simp
  | cons y t ih => exact le_trans (le_max_left _ _) (ih (max acc |y|))

lemma foldl_absmax_mem (l : List ℚ) (acc x : ℚ) (hx : x ∈ l) :
    |x| ≤ l.foldl (fun m x => max m |x|) acc := by
  induction l generalizing acc with
  | nil => simp at hx
  | cons y t ih =>
    rcases List.mem_cons.mp hx with rfl | hx2
    · exact le_trans (le_max_right _ _) (foldl_absmax_ge t (max acc |x|))
    · exact ih (max acc |y|) hx2

lemma le_listAbsMax (l : List ℚ) (x : ℚ) (hx : x ∈ l) :
    |x| ≤ listAbsMax l :=
  foldl_absmax_mem l 0 x hx

lemma peak_normalize_bound (audio : List ℚ) (c : ℚ) (hc : 0 ≤ c) (x : ℚ)
    (hx : x ∈ (if 0 < listAbsMax audio then
      audio.map (fun y => y / listAbsMax audio * c) else audio)) :
    |x| ≤ c := by
  by_cases hm : 0 < listAbsMax audio
  · rw [if_pos hm] at hx
    rcases List.mem_map.mp hx with ⟨y, hy, rfl⟩
    have h1 : |y| ≤ listAbsMax audio := le_listAbsMax audio y hy
    rw [abs_mul, abs_div, abs_of_pos hm, abs_of_nonneg hc]
    have h2 : |y| / listAbsMax audio ≤ 1 :=
      div_le_one_of_le₀ h1 (le_of_lt hm)
    calc |y| / listAbsMax audio * c ≤ 1 * c :=
          mul_le_mul_of_nonneg_right h2 hc
      _ = c := one_mul c
  · rw [if_neg hm] at hx
    have h1 : |x| ≤ listAbsMax audio := le_listAbsMax audio x hx
    have h2 : listAbsMax audio ≤ 0 := not_lt.mp hm
    linarith [abs_nonneg x]

lemma normalizeTo07_bound (audio : List ℚ) (x : ℚ)
    (hx : x ∈ normalizeTo07 audio) : |x| ≤ 7/10 := by
  unfold normalizeTo07 at hx
  exact peak_normalize_bound audio (7/10) (by norm_num) x hx

lemma generate_bound (text voice_pack : String) (sig : ℕ → ℚ) (x : ℚ)
    (hx : x ∈ generate_speech_like_audio text voice_pack sig) :
    |x| ≤ 7/10 :=
  normalizeTo07_bound _ x hx

lemma cosyPipeline_energy_only (ops : ExtAudioOps) (energy : ℚ)
    (b : List ℚ) :
    cosyPipeline ops 1 0 energy b
      = if energy ≠ 1 then b.map (fun x => x * energy) else b := by
  unfold cosyPipeline cosyStage2 cosyStage1
  norm_num

lemma normalizeTo07_length (audio : List ℚ) :
    (normalizeTo07 audio).length = audio.length := by
  by_cases h : 0 < listAbsMax audio <;> simp [normalizeTo07, h]

lemma generate_length (text voice_pack : String) (sig : ℕ → ℚ) :
    (generate_speech_like_audio text voice_pack sig).length
      = hqAudioLen text voice_pack := by
  unfold generate_speech_like_audio compress_audio
  rw [normalizeTo07_length]
  simp

lemma replicate_foldl_absmax (n : ℕ) (c acc : ℚ) (hn : 0 < n) :
    (List.replicate n c).foldl (fun m x => max m |x|) acc = max acc |c| := by
  induction n generalizing acc with
  | zero => omega
  | succ k ih =>
    rw [List.replicate_succ, List.foldl_cons]
    rcases Nat.eq_zero_or_pos k with rfl | hk
    · simp
    · rw [ih (max acc |c|) hk, max_assoc, max_self]

lemma listAbsMax_replicate (n : ℕ) (c : ℚ) (hc : 0 ≤ c) (hn : 0 < n) :
    listAbsMax (List.replicate n c) = c := by
  unfold listAbsMax
  rw [replicate_foldl_absmax n c 0 hn, abs_of_nonneg hc]
  exact max_eq_right (by exact hc)

/-- C7 counterexample: the fallback CosyVoice adapter, with a loaded
model, a one-character text, the default pack, speed 1, pitch 0 and
energy factor 2, returns a buffer whose samples equal 1.4, outside
[-1, 1]: the generator normalizes the peak to 0.7 and synthesize then
multiplies by the energy factor with no clamp. -/
theorem cosyvoice_energy_exceeds_unit_range :
    ∃ a, cosyvoiceSynthesize
        { timeStretch := fun audio _ => audio,
          pitchShift := fun audio _ => audio }
        true "a" "default" 1 0 2 (fun _ => 1) = some a ∧
      ∃ x ∈ a, 1 < x := by
  have hlen : hqAudioLen "a" "default" = 6615 := by
    have hA : "a".length = 1 := rfl
    have h1 : estimatedAudioLen "a" = 6615 := by
      unfold estimatedAudioLen pyTrunc
      rw [hA]
      rw [show (22050 : ℚ) * (((1 : ℕ) : ℚ) * (3/10)) = ((6615 : ℤ) : ℚ)
        from by norm_num]
      rw [Int.floor_intCast]
      rfl
    unfold hqAudioLen pyTrunc
    rw [h1]
    rw [show ((6615 : ℕ) : ℚ) / profileSpeed "default" = ((6615 : ℤ) : ℚ)
      from by norm_num [profileSpeed, dictGet]]
    rw [Int.floor_intCast]
    rfl
  have hraw : (List.range (hqAudioLen "a" "default")).map
      (fun _ : ℕ => (1 : ℚ)) = List.replicate 6615 1 := by
    rw [hlen, List.map_const', List.length_range]
  have hcomp : compress_audio (List.replicate 6615 1)
      = List.replicate 6615 (19/40) := by
    unfold compress_audio
    rw [List.map_replicate]
    norm_num [compressSample, abs_of_nonneg]
  have hmax : listAbsMax (List.replicate 6615 (19/40 : ℚ)) = 19/40 :=
    listAbsMax_replicate 6615 (19/40) (by norm_num) (by norm_num)
  have hnorm : normalizeTo07 (List.replicate 6615 (19/40 : ℚ))
      = List.replicate 6615 (7/10) := by
    unfold normalizeTo07
    rw [hmax, if_pos (by norm_num : (0:ℚ) < 19/40), List.map_replicate]
    norm_num
  have hgen : generate_speech_like_audio "a" "default" (fun _ => 1)
      = List.replicate 6615 (7/10) := by
    unfold generate_speech_like_audio
    rw [hraw, hcomp, hnorm]
  refine ⟨List.replicate 6615 (7/5), ?_, 7/5, ?_, by norm_num⟩
  · rw [show cosyvoiceSynthesize
        { timeStretch := fun audio _ => audio,
          pitchShift := fun audio _ => audio }
        true "a" "default" 1 0 2 (fun _ => 1)
        = some (cosyPipeline
            { timeStretch := fun audio _ => audio,
              pitchShift := fun audio _ => audio } 1 0 2
            (generate_speech_like_audio "a" (cosyBasePack "default")
              (fun _ => 1)))
        from rfl]
    rw [cosyPipeline_energy_only]
    rw [show cosyBasePack "default" = "default" from rfl, hgen]
    rw [if_pos (by norm_num : (2 : ℚ) ≠ 1), List.map_replicate]
    norm_num
  · exact List.mem_replicate.mpr ⟨by norm_num, rfl⟩

/-- C7 amended: each successful synthesis result is peak-normalized
before the energy step — pyttsx3 output always lies within [-1, 1] (its
peak is 0.8 and its energy factor acts upstream), and the CosyVoice
fallback output lies within [-0.7·|energy|, 0.7·|energy|] (speed 1,
pitch 0), hence within [-1, 1] whenever |energy| ≤ 1; because the energy
multiplication happens after normalization, energy factors above 1/0.7
can push CosyVoice samples outside [-1, 1]. -/
theorem synthesis_output_bounds_amended :
    (∀ (audio a : List ℚ), pyttsx3Postprocess audio = some a →
      ∀ x ∈ a, |x| ≤ 1) ∧
    (∀ (ops : ExtAudioOps) (loaded : Bool) (text pack : String)
        (energy : ℚ) (sig : ℕ → ℚ) (a : List ℚ),
      cosyvoiceSynthesize ops loaded text pack 1 0 energy sig = some a →
      ∀ x ∈ a, |x| ≤ 7/10 * |energy|) ∧
    (∀ (ops : ExtAudioOps) (loaded : Bool) (text pack : String)
        (energy : ℚ) (sig : ℕ → ℚ) (a : List ℚ), |energy| ≤ 1 →
      cosyvoiceSynthesize ops loaded text pack 1 0 energy sig = some a →
      ∀ x ∈ a, |x| ≤ 1) := by
  have hcosy : ∀ (ops : ExtAudioOps) (loaded : Bool) (text pack : String)
      (energy : ℚ) (sig : ℕ → ℚ) (a : List ℚ),
      cosyvoiceSynthesize ops loaded text pack 1 0 energy sig = some a →
      ∀ x ∈ a, |x| ≤ 7/10 * |energy| := by
    intro ops loaded text pack energy sig a h x hx
    cases loaded with
    | false => simp [cosyvoiceSynthesize] at h
    | true =>
      rw [show cosyvoiceSynthesize ops true text pack 1 0 energy sig
          = some (cosyPipeline ops 1 0 energy
            (generate_speech_like_audio text (cosyBasePack pack) sig))
          from rfl] at h
      rw [cosyPipeline_energy_only] at h
      rw [Option.some_inj] at h
      subst h
      by_cases he : energy = 1
      · subst he
        rw [if_neg (by simp)] at hx
        have := generate_bound text (cosyBasePack pack) sig x hx
        simpa using this
      · rw [if_pos he] at hx
        rcases List.mem_map.mp hx with ⟨y, hy, rfl⟩
        have hb := generate_bound text (cosyBasePack pack) sig y hy
        rw [abs_mul]
        exact mul_le_mul_of_nonneg_right hb (abs_nonneg energy)
  refine ⟨?_, hcosy, ?_⟩
  · intro audio a h x hx
    unfold pyttsx3Postprocess at h
    by_cases hl : audio.length = 0
    · rw [if_pos hl] at h
      cases h
    · rw [if_neg hl] at h
      rw [Option.some_inj] at h
      subst h
      have := peak_normalize_bound audio (4/5) (by norm_num) x hx
      linarith
  · intro ops loaded text pack energy sig a he h x hx
    have h1 := hcosy ops loaded text pack energy sig a h x hx
    have h2 : 7/10 * |energy| ≤ 7/10 * 1 :=
      mul_le_mul_of_nonneg_left he (by norm_num)
    linarith

/-- Witness for the claim C7 amended theorem at a concrete buffer. -/
theorem synthesis_output_bounds_amended_witness :
    ∀ x ∈ [(4 : ℚ)/5], |x| ≤ 1 :=
  synthesis_output_bounds_amended.1 [1] [4/5] (by
    norm_num [pyttsx3Postprocess, listAbsMax, max_def])

/-- C8: two fallback-synthesis runs with identical request parameters
(text, pack, speed, pitch, energy) produce buffers of the same length,
although the randomized noise makes the samples themselves differ: the
generated length depends only on text and profile, and the speed, pitch
and energy adjustments transform length independently of sample content
(the librosa time-stretch output length is a function of input length and
rate, and pitch-shift preserves length — both stated as hypotheses on the
external calls). -/
theorem fallback_duration_deterministic (ops : ExtAudioOps)
    (text pack : String) (speed : ℚ) (pitch : ℤ) (energy : ℚ)
    (sig1 sig2 : ℕ → ℚ) (a1 a2 : List ℚ)
    (hstretch : ∀ (u v : List ℚ) (r : ℚ), u.length = v.length →
      (ops.timeStretch u r).length = (ops.timeStretch v r).length)
    (hpitch : ∀ (u : List ℚ) (n : ℤ),
      (ops.pitchShift u n).length = u.length)
    (h1 : cosyvoiceSynthesize ops true text pack speed pitch energy sig1
      = some a1)
    (h2 : cosyvoiceSynthesize ops true text pack speed pitch energy sig2
      = some a2) :
    a1.length = a2.length := by
  have hs1 : ∀ u v : List ℚ, u.length = v.length →
      (cosyStage1 ops speed u).length = (cosyStage1 ops speed v).length := by
    intro u v huv
    unfold cosyStage1
    by_cases hs : speed = 1
    · rw [if_neg (by simpa using hs), if_neg (by simpa using hs)]
      exact huv
    · rw [if_pos hs, if_pos hs]
      unfold adjust_speed
      rw [if_neg hs, if_neg hs]
      exact hstretch u v speed huv
  have hp1 : ∀ u v : List ℚ, u.length = v.length →
      (cosyStage2 ops pitch u).length = (cosyStage2 ops pitch v).length := by
    intro u v huv
    unfold cosyStage2
    by_cases hp : pitch = 0
    · rw [if_neg (by simpa using hp), if_neg (by simpa using hp)]
      exact huv
    · rw [if_pos hp, if_pos hp]
      unfold adjust_pitch
      rw [if_neg hp, if_neg hp, hpitch, hpitch]
      exact huv
  have hpipe : ∀ u v : List ℚ, u.length = v.length →
      (cosyPipeline ops speed pitch energy u).length
        = (cosyPipeline ops speed pitch energy v).length := by
    intro u v huv
    unfold cosyPipeline
    by_cases he : energy = 1
    · rw [if_neg (by simpa using he), if_neg (by simpa using he)]
      exact hp1 _ _ (hs1 _ _ huv)
    · rw [if_pos he, if_pos he, List.length_map, List.length_map]
      exact hp1 _ _ (hs1 _ _ huv)
  have hr1 : a1 = cosyPipeline ops speed pitch energy
      (generate_speech_like_audio text (cosyBasePack pack) sig1) :=
    (Option.some_inj.mp (by
      rw [show cosyvoiceSynthesize ops true text pack speed pitch energy sig1
          = some (cosyPipeline ops speed pitch energy
            (generate_speech_like_audio text (cosyBasePack pack) sig1))
          from rfl] at h1
      exact h1)).symm
  have hr2 : a2 = cosyPipeline ops speed pitch energy
      (generate_speech_like_audio text (cosyBasePack pack) sig2) :=
    (Option.some_inj.mp (by
      rw [show cosyvoiceSynthesize ops true text pack speed pitch energy sig2
          = some (cosyPipeline ops speed pitch energy
            (generate_speech_like_audio text (cosyBasePack pack) sig2))
          from rfl] at h2
      exact h2)).symm
  rw [hr1, hr2]
  exact hpipe _ _ (by rw [generate_length, generate_length])

/-- Witness for the claim C8 theorem at concrete runs differing only in
their noise functions. -/
theorem fallback_duration_deterministic_witness :
    (cosyPipeline
      { timeStretch := fun audio _ => audio,
        pitchShift := fun audio _ => audio } 1 0 1
      (generate_speech_like_audio "a" (cosyBasePack "default")
        (fun _ => 1))).length
      = (cosyPipeline
        { timeStretch := fun audio _ => audio,
          pitchShift := fun audio _ => audio } 1 0 1
        (generate_speech_like_audio "a" (cosyBasePack "default")
          (fun _ => 0))).length :=
  fallback_duration_deterministic
    { timeStretch := fun audio _ => audio,
      pitchShift := fun audio _ => audio }
    "a" "default" 1 0 1 (fun _ => 1) (fun _ => 0) _ _
    (fun u v r h => by simpa using h) (fun u n => rfl) rfl rfl

/-! ## LRU eviction cache: src/core/performance_optimizer.py -/

/-- Python dict assignment d[k] = v on an association list: updates the
first binding of the key in place, otherwise appends a new binding (dict
insertion order). -/
def dictSet : List (String × α) → String → α → List (String × α)
  | [], k, v => [(k, v)]
  | (k2, w) :: rest, k, v =>
    if k2 = k then (k2, v) :: rest else (k2, w) :: dictSet rest k v

/-- Python del d[k] on an association list with unique keys. -/
def dictErase : List (String × α) → String → List (String × α)
  | [], _ => []
  | (k2, w) :: rest, k =>
    if k2 = k then rest else (k2, w) :: dictErase rest k

/-- The state of the Cache class (performance_optimizer.py lines 38-42):
the capacity bound and the two dicts; a logical clock replaces
time.time().  The threading.Lock of line 42 wraps every read and write
path of the class, which is why each operation below is one atomic state
transition. -/
structure Cache (α : Type) where
  max_size : ℕ
  cache : List (String × α)
  access_times : List (String × ℕ)

/-- Cache.get (lines 44-50), entirely under the lock: a hit refreshes the
key's access time and returns the value, a miss returns None and changes
nothing. -/
def Cache.get (c : Cache α) (now : ℕ) (key : String) :
    Option α × Cache α :=
  match dictGet c.cache key with
  | some v =>
      (some v, { c with access_times := dictSet c.access_times key now })
  | none => (none, c)

/-- min(self.access_times.keys(), key=...) of Cache.set (lines 56-57):
the first key attaining the minimal access time (Python min keeps the
earliest of equal elements); min() over an empty dict raises ValueError,
modelled as none. -/
def minByVal : List (String × ℕ) → Option (String × ℕ)
  | [] => none
  | p :: rest =>
      some (rest.foldl (fun best q => if q.2 < best.2 then q else best) p)

/-- Cache.set (lines 52-62), entirely under the lock: when the store has
reached max_size, the key with the oldest access time is deleted from
both dicts before the new binding is written into both.  The none result
is the ValueError of min() over an empty dict, reachable only with
max_size = 0; it is raised before any mutation. -/
def Cache.set (c : Cache α) (now : ℕ) (key : String) (v : α) :
    Option (Cache α) :=
  if c.max_size ≤ c.cache.length then
    match minByVal c.access_times with
    | none => none
    | some oldest =>
        some { c with
          cache := dictSet (dictErase c.cache oldest.1) key v,
          access_times :=
            dictSet (dictErase c.access_times oldest.1) key now }
  else
    some { c with
      cache := dictSet c.cache key v,
      access_times := dictSet c.access_times key now }

/-- Cache.clear (lines 64-68), entirely under the lock. -/
def Cache.clear (c : Cache α) : Cache α :=
  { c with cache := [], access_times := [] }

/-- The cache representation invariant: the entry count never exceeds
max_size, the key sequences of the value store and the access-time store
are identical, and keys are unique (they model Python dict keys). -/
def CacheInv (c : Cache α) : Prop :=
  c.cache.length ≤ c.max_size ∧
  c.cache.map Prod.fst = c.access_times.map Prod.fst ∧
  (c.cache.map Prod.fst).Nodup

/-- The three cache operations. -/
inductive CacheOp (α : Type) where
  | get (now : ℕ) (key : String)
  | set (now : ℕ) (key : String) (v : α)
  | clear

/-- State transition of one cache operation; a set that raises ValueError
does so before mutating, leaving the state unchanged. -/
def applyCacheOp : CacheOp α → Cache α → Cache α
  | .get now key, c => (Cache.get c now key).2
  | .set now key v, c =>
      match Cache.set c now key v with
      | some c2 => c2
      | none => c
  | .clear, c => Cache.clear c

lemma dictSet_keys (m : List (String × α)) (k : String) (v : α) :
    (dictSet m k v).map Prod.fst
      = if k ∈ m.map Prod.fst then m.map Prod.fst
        else m.map Prod.fst ++ [k] := by
  induction m with
  | nil => simp [dictSet]
  | cons q rest ih =>
    cases q with
    | mk k2 w =>
      by_cases hk : k2 = k
      · subst hk
        simp [dictSet]
      · rw [show dictSet ((k2, w) :: rest) k v
            = (k2, w) :: dictSet rest k v from by rw [dictSet, if_neg hk]]
        simp only [List.map_cons, ih]
        by_cases hmem : k ∈ rest.map Prod.fst
        · rw [if_pos hmem, if_pos (by simp [hmem])]
        · rw [if_neg hmem, if_neg (by simp [hmem, Ne.symm hk])]
          simp

lemma dictErase_keys (m : List (String × α)) (k : String) :
    (dictErase m k).map Prod.fst = (m.map Prod.fst).erase k := by
  induction m with
  | nil => simp [dictErase]
  | cons q rest ih =>
    cases q with
    | mk k2 w =>
      by_cases hk : k2 = k
      · subst hk
        rw [show dictErase ((k2, w) :: rest) k2 = rest
            from by rw [dictErase, if_pos rfl]]
        simp [List.erase_cons_head]
      · rw [show dictErase ((k2, w) :: rest) k = (k2, w) :: dictErase rest k
            from by rw [dictErase, if_neg hk]]
        simp only [List.map_cons, ih]
        rw [List.erase_cons_tail]
        simp [hk]

lemma dictGet_none_of_not_mem (m : List (String × α)) (k : String)
    (h : k ∉ m.map Prod.fst) : dictGet m k = none := by
  induction m with
  | nil => rfl
  | cons q rest ih =>
    cases q with
    | mk k2 w =>
      simp only [List.map_cons, List.mem_cons] at h
      push_neg at h
      rw [dictGet, if_neg (Ne.symm h.1)]
      exact ih h.2

lemma dictGet_key_mem (m : List (String × α)) (k : String) (v : α)
    (h : dictGet m k = some v) : k ∈ m.map Prod.fst :=
  List.mem_map.mpr ⟨(k, v), dictGet_mem m k v h, rfl⟩

lemma foldl_min_mem (l : List (String × ℕ)) (p : String × ℕ) :
    l.foldl (fun best q => if q.2 < best.2 then q else best) p ∈ p :: l := by
  induction l generalizing p with
  | nil => simp
  | cons r t ih =>
    rw [List.foldl_cons]
    rcases List.mem_cons.mp (ih (if r.2 < p.2 then r else p)) with h | h
    · rw [h]
      by_cases hr : r.2 < p.2
      · rw [if_pos hr]
        exact List.mem_cons_of_mem _ (List.mem_cons_self _ _)
      · rw [if_neg hr]
        exact List.mem_cons_self _ _
    · exact List.mem_cons_of_mem _ (List.mem_cons_of_mem _ h)

lemma foldl_min_le (l : List (String × ℕ)) (p : String × ℕ) :
    ∀ q ∈ p :: l,
      (l.foldl (fun best q => if q.2 < best.2 then q else best) p).2 ≤ q.2 := by
  induction l generalizing p with
  | nil =>
    intro q hq
    simp at hq
    subst hq
    simp
  | cons r t ih =>
    intro q hq
    rw [List.foldl_cons]
    have hstep : (if r.2 < p.2 then r else p).2 ≤ p.2 ∧
        (if r.2 < p.2 then r else p).2 ≤ r.2 := by
      by_cases hr : r.2 < p.2
      · rw [if_pos hr]
        exact ⟨le_of_lt hr, le_refl _⟩
      · rw [if_neg hr]
        exact ⟨le_refl _, le_of_not_lt hr⟩
    rcases List.mem_cons.mp hq with rfl | hq2
    · exact le_trans
        (ih (if r.2 < q.2 then r else q) _ (List.mem_cons_self _ _))
        hstep.1
    · rcases List.mem_cons.mp hq2 with rfl | hq3
      · exact le_trans
          (ih (if q.2 < p.2 then q else p) _ (List.mem_cons_self _ _))
          hstep.2
      · exact ih (if r.2 < p.2 then r else p) q
          (List.mem_cons_of_mem _ hq3)

lemma minByVal_spec (l : List (String × ℕ)) (p : String × ℕ)
    (h : minByVal l = some p) : p ∈ l ∧ ∀ q ∈ l, p.2 ≤ q.2 := by
  cases l with
  | nil => cases h
  | cons r t =>
    rw [minByVal, Option.some_inj] at h
    subst h
    exact ⟨foldl_min_mem t r, foldl_min_le t r⟩

lemma dictSet_length (m : List (String × α)) (k : String) (v : α) :
    (dictSet m k v).length
      = if k ∈ m.map Prod.fst then m.length else m.length + 1 := by
  have h : (dictSet m k v).length = ((dictSet m k v).map Prod.fst).length :=
    (List.length_map _ _).symm
  rw [h, dictSet_keys]
  by_cases hm : k ∈ m.map Prod.fst
  · rw [if_pos hm, if_pos hm, List.length_map]
  · rw [if_neg hm, if_neg hm, List.length_append, List.length_map]
    rfl

lemma dictSet_keys_nodup (m : List (String × α)) (k : String) (v : α)
    (h : (m.map Prod.fst).Nodup) : ((dictSet m k v).map Prod.fst).Nodup := by
  rw [dictSet_keys]
  by_cases hm : k ∈ m.map Prod.fst
  · rw [if_pos hm]
    exact h
  · rw [if_neg hm]
    simp [List.nodup_append, h, hm]

lemma cacheGet_preserves (c : Cache α) (now : ℕ) (key : String)
    (h : CacheInv c) : CacheInv (Cache.get c now key).2 := by
  obtain ⟨hlen, hkeys, hnd⟩ := h
  unfold Cache.get
  cases hg : dictGet c.cache key with
  | none => exact ⟨hlen, hkeys, hnd⟩
  | some v =>
    refine ⟨hlen, ?_, hnd⟩
    show c.cache.map Prod.fst = (dictSet c.access_times key now).map Prod.fst
    rw [dictSet_keys, if_pos (hkeys ▸ dictGet_key_mem c.cache key v hg)]
    exact hkeys

lemma cacheSet_preserves (c : Cache α) (now : ℕ) (key : String) (v : α)
    (c2 : Cache α) (h : CacheInv c) (hs : Cache.set c now key v = some c2) :
    CacheInv c2 := by
  obtain ⟨hlen, hkeys, hnd⟩ := h
  unfold Cache.set at hs
  by_cases hcap : c.max_size ≤ c.cache.length
  · rw [if_pos hcap] at hs
    cases hmin : minByVal c.access_times with
    | none =>
      rw [hmin] at hs
      cases hs
    | some oldest =>
      rw [hmin, Option.some_inj] at hs
      subst hs
      have hmem := (minByVal_spec _ _ hmin).1
      have hkmem : oldest.1 ∈ c.cache.map Prod.fst := by
        rw [hkeys]
        exact List.mem_map.mpr ⟨oldest, hmem, rfl⟩
      have hfull : c.cache.length = c.max_size := le_antisymm hlen hcap
      have hpos : 1 ≤ c.cache.length :=
        List.length_pos.mpr (by
          intro hnil
          rw [hnil] at hkmem
          simp at hkmem)
      have herase_keys : (dictErase c.cache oldest.1).map Prod.fst
          = (c.cache.map Prod.fst).erase oldest.1 := dictErase_keys _ _
      have herase_len : (dictErase c.cache oldest.1).length
          = c.cache.length - 1 := by
        have h2 := congrArg List.length herase_keys
        rw [List.length_map] at h2
        rw [h2, List.length_erase_of_mem hkmem, List.length_map]
      have hkeys2 : (dictErase c.cache oldest.1).map Prod.fst
          = (dictErase c.access_times oldest.1).map Prod.fst := by
        rw [herase_keys, dictErase_keys, hkeys]
      have hnd2 : ((dictErase c.cache oldest.1).map Prod.fst).Nodup := by
        rw [herase_keys]
        exact hnd.erase _
      refine ⟨?_, ?_, ?_⟩
      · show (dictSet (dictErase c.cache oldest.1) key v).length ≤ c.max_size
        rw [dictSet_length]
        by_cases hk2 : key ∈ (dictErase c.cache oldest.1).map Prod.fst
        · rw [if_pos hk2, herase_len]
          omega
        · rw [if_neg hk2, herase_len]
          omega
      · show (dictSet (dictErase c.cache oldest.1) key v).map Prod.fst
          = (dictSet (dictErase c.access_times oldest.1) key now).map Prod.fst
        rw [dictSet_keys, dictSet_keys, hkeys2]
      · exact dictSet_keys_nodup _ _ _ hnd2
  · rw [if_neg hcap, Option.some_inj] at hs
    subst hs
    have hlt : c.cache.length < c.max_size := lt_of_not_le hcap
    refine ⟨?_, ?_, dictSet_keys_nodup _ _ _ hnd⟩
    · show (dictSet c.cache key v).length ≤ c.max_size
      rw [dictSet_length]
      by_cases hk2 : key ∈ c.cache.map Prod.fst
      · rw [if_pos hk2]
        exact hlen
      · rw [if_neg hk2]
        omega
    · show (dictSet c.cache key v).map Prod.fst
        = (dictSet c.access_times key now).map Prod.fst
      rw [dictSet_keys, dictSet_keys, hkeys]

/-- C9: every cache operation — get, set and clear, each running entirely
inside the single mutual-exclusion lock and hence modelled as one atomic
transition — preserves the invariant that the entry count never exceeds
max_size and the two stores hold identical keys; and a set at capacity
evicts the entry whose access time is minimal over the whole access-time
store. -/
theorem cache_invariant_and_lru_eviction :
    (∀ (α : Type) (op : CacheOp α) (c : Cache α),
      CacheInv c → CacheInv (applyCacheOp op c)) ∧
    (∀ (α : Type) (c : Cache α) (now : ℕ) (key : String) (v : α)
        (c2 : Cache α),
      CacheInv c → c.max_size ≤ c.cache.length →
      Cache.set c now key v = some c2 →
      ∃ p, minByVal c.access_times = some p ∧
        (∀ q ∈ c.access_times, p.2 ≤ q.2) ∧
        (p.1 ≠ key → p.1 ∉ c2.cache.map Prod.fst)) := by
  constructor
  · intro α op c h
    cases op with
    | get now key => exact cacheGet_preserves c now key h
    | set now key v =>
      show CacheInv (match Cache.set c now key v with
        | some c2 => c2
        | none => c)
      cases hs : Cache.set c now key v with
      | none => exact h
      | some c2 => exact cacheSet_preserves c now key v c2 h hs
    | clear =>
      refine ⟨?_, ?_, ?_⟩ <;> simp [applyCacheOp, Cache.clear]
  · intro α c now key v c2 h hcap hs
    obtain ⟨hlen, hkeys, hnd⟩ := h
    unfold Cache.set at hs
    rw [if_pos hcap] at hs
    cases hmin : minByVal c.access_times with
    | none =>
      rw [hmin] at hs
      cases hs
    | some oldest =>
      rw [hmin, Option.some_inj] at hs
      subst hs
      obtain ⟨hmem, hminle⟩ := minByVal_spec _ _ hmin
      refine ⟨oldest, rfl, hminle, ?_⟩
      intro hne hcontra
      have hcontra2 : oldest.1 ∈
          (dictSet (dictErase c.cache oldest.1) key v).map Prod.fst :=
        hcontra
      rw [dictSet_keys] at hcontra2
      have hnotin : oldest.1 ∉ (dictErase c.cache oldest.1).map Prod.fst := by
        rw [dictErase_keys]
        exact hnd.not_mem_erase
      by_cases hk2 : key ∈ (dictErase c.cache oldest.1).map Prod.fst
      · rw [if_pos hk2] at hcontra2
        exact hnotin hcontra2
      · rw [if_neg hk2] at hcontra2
        rcases List.mem_append.mp hcontra2 with hin | hin
        · exact hnotin hin
        · simp at hin
          exact hne hin

/-- Witness for the claim C9 theorem at a concrete full cache. -/
theorem cache_invariant_and_lru_eviction_witness :
    ∃ p, minByVal ([("a", 5)] : List (String × ℕ)) = some p ∧
      (∀ q ∈ ([("a", 5)] : List (String × ℕ)), p.2 ≤ q.2) ∧
      (p.1 ≠ "b" →
        p.1 ∉ (({ max_size := 1, cache := [("b", 7)],
                  access_times := [("b", 9)] } : Cache ℕ).cache.map
          Prod.fst)) :=
  cache_invariant_and_lru_eviction.2 ℕ
    { max_size := 1, cache := [("a", 3)], access_times := [("a", 5)] }
    9 "b" 7
    { max_size := 1, cache := [("b", 7)], access_times := [("b", 9)] }
    ⟨by decide, by decide, by decide⟩ (by decide) rfl

/-! ## CLI and batch entry points: main.py and
src/core/batch_processor.py -/

/-- The attribute names a TTSEngine instance carries: the __init__ fields
(src/core/tts_engine.py lines 30-33) and the methods (lines 37-172).
There is no is_model_loaded among them, and no sample_rate either. -/
def ttsEngineAttributes : List String :=
  ["model_path", "device", "available_engines", "current_engine",
   "load_model", "get_available_engines", "set_current_engine",
   "get_current_engine", "synthesize", "get_engine_info",
   "get_all_engines_info", "get_voice_packs", "get_engine_voice_packs",
   "get_all_engine_voice_packs", "get_available_voice_packs",
   "get_available_engine_voice_packs", "get_voice_pack_info",
   "get_engine_voice_pack_info", "is_engine_voice_pack_available"]

/-- Python attribute lookup on the tts_engine instance: AttributeError
for a name the class does not define. -/
def getattrTtsEngine (name : String) : Except String String :=
  if name ∈ ttsEngineAttributes then .ok name
  else .error "AttributeError"

/-- Outcome of the CLI synthesize command body: the whole body of
main.py lines 42-87 sits in one try/except Exception that logs and
returns, so the command either completes with a saved file or ends in a
logged error; it never re-raises. -/
inductive CliOutcome where
  | savedAudio (path : String)
  | loggedError (msg : String)
deriving DecidableEq

/-- The CLI synthesize command (main.py lines 40-88): its first engine
call is tts_engine.is_model_loaded() on line 46; the AttributeError that
lookup raises is caught by the except of lines 86-87, so the command logs
the error and reaches neither the synthesize call nor the save_audio call
of line 72 — the rest of the body is unreachable for every input and is
not modelled further. -/
def cliSynthesize (text output voice_pack : String) : CliOutcome :=
  match getattrTtsEngine "is_model_loaded" with
  | .error e => .loggedError e
  | .ok _ => .savedAudio output

/-- The report dict returned by process_text_list. -/
structure BatchReport where
  success : Bool
  message : String
deriving DecidableEq

/-- BatchProcessor.process_text_list (batch_processor.py lines 21-90): an
empty text list returns a failure report (lines 24-25) before any engine
call; otherwise line 28 calls tts_engine.is_model_loaded() outside any
try/except, so the AttributeError propagates to the caller — the
per-text try/except of lines 38-79 comes after the guard and cannot catch
it.  The processing loop is unreachable and not modelled further. -/
def process_text_list (texts : List String) : Except String BatchReport :=
  if texts.isEmpty then .ok { success := false, message := "没有文本需要处理" }
  else
    match getattrTtsEngine "is_model_loaded" with
    | .error e => .error e
    | .ok _ => .ok { success := true, message := "" }

/-- Parameter count of AudioProcessor.save_audio (audio_processor.py
lines 59-61): audio_data, sample_rate, engine_name, voice_pack and the
optional filename — five parameters besides self, the first four
required. -/
def saveAudioParamCount : ℕ := 5

/-- The required parameters of save_audio (all but the optional
filename). -/
def saveAudioRequiredParamCount : ℕ := 4

/-- Argument count of the save_audio call in the CLI synthesize command
(main.py line 72): the audio array and the output path only. -/
def cliSaveAudioArgCount : ℕ := 2

/-- C10 counterexample: on the empty text list, process_text_list returns
its failure report before ever reaching the is_model_loaded guard, so for
that input no AttributeError is raised or propagated — refuting the
claim's for-every-input quantification over the batch processor. -/
theorem process_text_list_empty_skips_guard :
    process_text_list []
      = Except.ok { success := false, message := "没有文本需要处理" } := rfl

/-- C10 amended: is_model_loaded is not an attribute of TTSEngine, so the
guard raises AttributeError; the CLI synthesize command catches and logs
it and saves no audio, for every input (its save_audio call — two
arguments against a five-parameter, four-required signature — is never
reached); process_text_list propagates the AttributeError to its caller
for every non-empty text list, while the empty list returns a failure
report before the guard. -/
theorem missing_guard_behaviour_amended :
    ("is_model_loaded" ∉ ttsEngineAttributes) ∧
    (∀ text output voice_pack : String,
      cliSynthesize text output voice_pack
        = .loggedError "AttributeError") ∧
    (∀ texts : List String, ¬ texts.isEmpty = true →
      process_text_list texts = .error "AttributeError") ∧
    cliSaveAudioArgCount = 2 ∧ saveAudioParamCount = 5 ∧
    cliSaveAudioArgCount < saveAudioRequiredParamCount := by
  refine ⟨by decide, ?_, ?_, rfl, rfl, by decide⟩
  · intro text output voice_pack
    rfl
  · intro texts h
    unfold process_text_list
    rw [if_neg h]
    rfl

/-- Witness for the claim C10 amended theorem at a concrete text list. -/
theorem missing_guard_behaviour_amended_witness :
    process_text_list ["第一个测试文本。"] = Except.error "AttributeError" :=
  missing_guard_behaviour_amended.2.2.1 ["第一个测试文本。"] (by decide)

end Txt2Voice
